import Mathlib

/-!
Verification of the MSMP RPC client (`plugins/msmp_plugin.py`): a shallow
embedding of the request correlator, notification dispatcher and connection
lifecycle of `MSMPClient`, plus the `_extract_names` payload helper.

JSON values are modelled by the inductive `Json` (numbers as integers; the
claims under study never exercise float-specific behaviour).  A parsed JSON
object (a Python `dict`) is modelled as an association list with first-match
lookup.  `asyncio.Future` objects are modelled by the `Promise` inductive;
the client's future heap is the `futures` association list, and the keys of
the `self._pending` dict are the `pendingIds` list (the dict's value for key
`i` is the future object `i`, so popping/clearing the dict does not destroy
the future, exactly as in Python).
-/

/-- JSON values as parsed by `json.loads`. -/
inductive Json where
  | null
  | bool (b : Bool)
  | num (n : Int)
  | str (s : String)
  | arr (xs : List Json)
  | obj (kvs : List (String × Json))
deriving Repr

/-- Python truthiness of a JSON value (`if n:` in `_extract_names`). -/
def truthy : Json → Bool
  | .null => false
  | .bool b => b
  | .num n => !(n == 0)
  | .str s => !(s == "")
  | .arr xs => !xs.isEmpty
  | .obj kvs => !kvs.isEmpty

/-- `_extract_names(params)` from `plugins/msmp_plugin.py` lines 166-185:
tries dict shape (a `player` object, then a `players` list), then list shape
(each element a dict with `name`, else a nested `player` object), then bare
string, and returns `["Unknown"]` when nothing was collected. -/
def extract_names (params : Json) : List Json :=
  let names : List Json :=
    match params with
    | .obj kvs =>
        (match kvs.lookup "player" with
         | some (.obj pk) =>
             match pk.lookup "name" with
             | some n => if truthy n then [n] else []
             | none => []
         | _ => []) ++
        (match kvs.lookup "players" with
         | some (.arr ps) =>
             ps.filterMap (fun p =>
               match p with
               | .obj pkvs => pkvs.lookup "name"
               | _ => none)
         | _ => [])
    | .arr ps =>
        ps.filterMap (fun p =>
          match p with
          | .obj pkvs =>
              match pkvs.lookup "name" with
              | some n => some n
              | none =>
                  match pkvs.lookup "player" with
                  | some (.obj ppk) => ppk.lookup "name"
                  | _ => none
          | _ => none)
    | .str s => [Json.str s]
    | _ => []
  if names.isEmpty then [Json.str "Unknown"] else names

/-- Errors a `call()` future can be settled with: `RuntimeError(msg["error"])`
for a JSON-RPC error response, `ConnectionClosed(1006, "reconnecting")` on
connection loss. -/
inductive RpcError where
  | remoteError (payload : Json)
  | connectionClosed
deriving Repr

/-- State of an `asyncio.Future` created by `call()`. `cancelled` is the
state `asyncio.wait_for` leaves the future in when the timeout fires. -/
inductive Promise where
  | pending
  | resolved (v : Json)
  | rejected (e : RpcError)
  | cancelled
deriving Repr

/-- State of one `MSMPClient` instance.  `futures` is the heap of every
future ever created by `call()` (keyed by its request id); `pendingIds` is
the key set of the `self._pending` dict; `subs` is `self._subs` with
handlers named by natural numbers; `tasks` counts reader tasks spawned by
`start()`; `connected` abstracts `self.ws and not self.ws.closed`. -/
structure ClientState where
  rid : Nat
  futures : List (Nat × Promise)
  pendingIds : List Nat
  subs : List (String × List Nat)
  running : Bool
  tasks : Nat
  connected : Bool
deriving Repr

/-- `MSMPClient.__init__`: counter at 0, empty pending dict, empty
subscription table, not running, no reader task, no socket. -/
def initClient : ClientState :=
  { rid := 0, futures := [], pendingIds := [], subs := [], running := false,
    tasks := 0, connected := false }

/-- The state of the future object `i` as the caller holding it sees it. -/
def getFut (s : ClientState) (i : Nat) : Option Promise :=
  s.futures.lookup i

/-- The handler list registered for method `m` (`self._subs.get(m, [])`). -/
def subsOf (s : ClientState) (m : String) : List Nat :=
  (s.subs.lookup m).getD []

/-- `self._subs.setdefault(m, []).append(h)`: append to the entry for `m`,
creating it when absent. -/
def setdefaultAppend : List (String × List Nat) → String → Nat → List (String × List Nat)
  | [], m, h => [(m, [h])]
  | (k, hs) :: rest, m, h =>
      if k = m then (k, hs ++ [h]) :: rest
      else (k, hs) :: setdefaultAppend rest m h

/-- `MSMPClient.on(notif_method, handler)`. -/
def onReg (s : ClientState) (m : String) (h : Nat) : ClientState :=
  { s with subs := setdefaultAppend s.subs m h }

/-- `MSMPClient.start`: a no-op while `self._running`, otherwise set the
flag and spawn the reader task. -/
def startOp (s : ClientState) : ClientState :=
  if s.running then s else { s with running := true, tasks := s.tasks + 1 }

/-- A successful pass of `MSMPClient._run`: `self.ws = ws` makes the client
connected; nothing else of the client's state is touched. -/
def reconnect (s : ClientState) : ClientState :=
  { s with connected := true }

/-- The outgoing request built by `call()`: `{"jsonrpc": "2.0", "id": rid,
"method": method}` with `"params"` added only when `params is not None`. -/
def mkRequest (rid : Nat) (method : String) (params : Option Json) : List (String × Json) :=
  [("jsonrpc", Json.str "2.0"), ("id", Json.num (Int.ofNat rid)),
   ("method", Json.str method)] ++
  (match params with
   | some p => [("params", p)]
   | none => [])

/-- The critical section of `call()` (under `self._lock`): increment the id
counter, create a fresh pending future, register it in the pending dict, and
send the serialized request.  Returns the new state, the assigned id and the
request object written to the socket. -/
def callCommit (s : ClientState) (method : String) (params : Option Json) :
    ClientState × Nat × List (String × Json) :=
  let rid := s.rid + 1
  ({ s with rid := rid,
            futures := s.futures ++ [(rid, Promise.pending)],
            pendingIds := s.pendingIds ++ [rid] },
   rid, mkRequest rid method params)

/-- Helper for the future-heap update of a matched response: the source sets
the future only when it was found and `not fut.done()`. -/
def setIfPending (i : Nat) (res : Promise) (j : Nat) (p : Promise) : Promise :=
  if j = i then
    match p with
    | Promise.pending => res
    | _ => p
  else p

/-- Does the JSON `id` value of an incoming message equal the integer key
`i` of the pending dict? (`self._pending.pop(msg["id"], None)` finds an
entry only when `msg["id"]` is the number `i`.) -/
def matchIdv : Json → Nat → Bool
  | .num m, i => m == Int.ofNat i
  | _, _ => false

/-- The settled state of a matched response's future: rejected with the
`error` payload verbatim when present, else resolved with the `result`
value, `null` when the `result` key is absent (lines 102-105). -/
def settleValue (msg : List (String × Json)) : Promise :=
  match msg.lookup "error" with
  | some e => Promise.rejected (RpcError.remoteError e)
  | none => Promise.resolved ((msg.lookup "result").getD Json.null)

/-- One iteration of `MSMPClient._recv_loop` for a parsed message object.
With an `id`: pop the pending entry (if any) and settle its future — reject
with the `error` payload, else resolve with `result` (null when absent) —
only when the future is not yet done.  Without an `id`: dispatch to the
handlers registered for `msg.get("method", "")`, spawning one task per
handler with `msg.get("params", {})`; the spawned tasks are returned as the
second component. -/
def handleMessage (s : ClientState) (msg : List (String × Json)) :
    ClientState × List (Nat × Json) :=
  match msg.lookup "id" with
  | some idv =>
      match s.pendingIds.find? (fun i => matchIdv idv i) with
      | some i =>
          ({ s with pendingIds := s.pendingIds.erase i,
                    futures := s.futures.map
                      (fun e => (e.1, setIfPending i (settleValue msg) e.1 e.2)) },
           [])
      | none => (s, [])
  | none =>
      let key : Option String :=
        match msg.lookup "method" with
        | some (.str m) => some m
        | some _ => none
        | none => some ""
      let params := (msg.lookup "params").getD (Json.obj [])
      let handlers := match key with
        | some k => subsOf s k
        | none => []
      (s, handlers.map (fun h => (h, params)))

/-- Helper for the connection-loss cleanup: a future in the pending dict
that is not done gets `ConnectionClosed`; anything else is untouched. -/
def rejectIfPending (ids : List Nat) (i : Nat) (p : Promise) : Promise :=
  if i ∈ ids then
    match p with
    | Promise.pending => Promise.rejected RpcError.connectionClosed
    | _ => p
  else p

/-- The `finally` block of `_recv_loop`: every not-yet-done future still in
the pending dict is rejected with `ConnectionClosed(1006, "reconnecting")`
and the dict is cleared; the socket is gone. -/
def connLossCleanup (s : ClientState) : ClientState :=
  { s with futures := s.futures.map (fun e => (e.1, rejectIfPending s.pendingIds e.1 e.2)),
           pendingIds := [],
           connected := false }

/-- `asyncio.wait_for(fut, timeout)` expiring: the still-pending future is
cancelled and `TimeoutError` is raised to the caller.  `call()` performs no
cleanup of `self._pending` on this path. -/
def timeoutFire (s : ClientState) (i : Nat) : ClientState :=
  { s with futures := s.futures.map (fun e => (e.1, setIfPending i Promise.cancelled e.1 e.2)) }

/-- The observable events of one client's lifetime, for reasoning about
whole histories. -/
inductive Event where
  | commit (method : String) (params : Option Json)
  | recv (msg : List (String × Json))
  | connLoss
  | reconn
  | timeout (i : Nat)
  | register (m : String) (h : Nat)
  | startEv

/-- Effect of one event on the client state. -/
def applyEvent (s : ClientState) : Event → ClientState
  | .commit m p => (callCommit s m p).1
  | .recv msg => (handleMessage s msg).1
  | .connLoss => connLossCleanup s
  | .reconn => reconnect s
  | .timeout i => timeoutFire s i
  | .register m h => onReg s m h
  | .startEv => startOp s

/-- The request ids assigned to the `call()` commits of a trace, in commit
order. -/
def assignedIds (s : ClientState) : List Event → List Nat
  | [] => []
  | e :: es =>
      match e with
      | .commit _ _ => (s.rid + 1) :: assignedIds (applyEvent s e) es
      | _ => assignedIds (applyEvent s e) es

/-- A client that started, connected, and committed one `call` (id 1). -/
def sC1 : ClientState := (callCommit (reconnect (startOp initClient)) "minecraft:players" none).1

/-- A connected client with two calls in flight (ids 1 and 2). -/
def sC3 : ClientState :=
  { initClient with
      rid := 2
      pendingIds := [1, 2]
      futures := [(1, Promise.pending), (2, Promise.pending)]
      connected := true }

/-- A connected client with one call in flight (id 7). -/
def sC4 : ClientState :=
  { initClient with
      rid := 7
      pendingIds := [7]
      futures := [(7, Promise.pending)]
      connected := true }

/-- An error response matching request id 7. -/
def msgC4 : List (String × Json) :=
  [("jsonrpc", Json.str "2.0"), ("id", Json.num 7),
   ("error", Json.obj [("code", Json.num (-1)), ("message", Json.str "bad")])]

/-- A client with two handlers on `joined` and one on `left`. -/
def sC5 : ClientState :=
  { initClient with subs := [("joined", [0, 1]), ("left", [2])] }

/-- A `joined` notification with a single-player-object payload. -/
def msgC5 : List (String × Json) :=
  [("method", Json.str "joined"),
   ("params", Json.obj [("player", Json.obj [("name", Json.str "Bob")])])]

/-- A client with a handler on `joined` and one call in flight. -/
def sC8 : ClientState :=
  { initClient with
      rid := 3
      subs := [("joined", [0])]
      pendingIds := [3]
      futures := [(3, Promise.pending)]
      connected := true }

/-- A `joined` notification with a bare-string payload. -/
def msgC8 : List (String × Json) :=
  [("method", Json.str "joined"), ("params", Json.str "Bob")]

/-- A client with two handlers on `joined`. -/
def sC10 : ClientState :=
  { initClient with subs := [("joined", [4, 5])] }

/-- A notification with no `id` and no `params` key. -/
def msgC10 : List (String × Json) := [("method", Json.str "joined")]

/-! ## Helper lemmas -/

/-- Looking a key up in a value-mapped association list. -/
theorem lookup_map_val (l : List (Nat × Promise)) (f : Nat → Promise → Promise) (i : Nat) :
    (l.map (fun e => (e.1, f e.1 e.2))).lookup i = (l.lookup i).map (f i) := by
  induction l with
  | nil => rfl
  | cons e l ih =>
      obtain ⟨k, v⟩ := e
      by_cases h : i = k
      · subst h
        have hb : (i == i) = true := by simp
        simp [List.lookup, hb]
      · have hb : (i == k) = false := beq_eq_false_iff_ne.mpr h
        simp [List.lookup, hb, ih]

/-- `find?` returns the unique element satisfying the predicate when it is
a member. -/
theorem find_unique {p : Nat → Bool} {n : Nat} (hp : ∀ i, p i = true ↔ i = n)
    {l : List Nat} (hm : n ∈ l) : l.find? p = some n := by
  induction l with
  | nil => cases hm
  | cons a l ih =>
      by_cases h : p a
      · rw [List.find?_cons_of_pos _ h, (hp a).mp h]
      · rw [List.find?_cons_of_neg _ h]
        rcases List.mem_cons.mp hm with rfl | hm2
        · exact absurd ((hp n).mpr rfl) h
        · exact ih hm2

/-- A message `id` equal to the JSON number `n` matches exactly the pending
key `n`. -/
theorem matchIdv_num (n i : Nat) : matchIdv (Json.num (Int.ofNat n)) i = true ↔ i = n := by
  simp only [matchIdv, beq_iff_eq]
  constructor
  · intro h; exact (Int.ofNat.inj h).symm
  · intro h; subst h; rfl

/-- The receive loop never touches the id counter. -/
theorem handleMessage_rid (s : ClientState) (msg : List (String × Json)) :
    (handleMessage s msg).1.rid = s.rid := by
  cases h1 : msg.lookup "id" with
  | none => simp [handleMessage, h1]
  | some idv =>
      cases h2 : s.pendingIds.find? (fun i => matchIdv idv i) with
      | none => simp [handleMessage, h1, h2]
      | some i => simp [handleMessage, h1, h2]

/-- No event ever decreases the id counter. -/
theorem rid_mono (s : ClientState) (e : Event) : s.rid ≤ (applyEvent s e).rid := by
  cases e with
  | commit m p => simp [applyEvent, callCommit]
  | recv msg => rw [applyEvent, handleMessage_rid]
  | connLoss => exact le_refl _
  | reconn => exact le_refl _
  | timeout i => exact le_refl _
  | register m h => exact le_refl _
  | startEv =>
      show s.rid ≤ (startOp s).rid
      by_cases h : s.running <;> simp [startOp, h]

/-- Every id assigned along a trace exceeds the counter at its start. -/
theorem assignedIds_lower (es : List Event) :
    ∀ s : ClientState, ∀ x ∈ assignedIds s es, s.rid < x := by
  induction es with
  | nil => intro s x hx; cases hx
  | cons e es ih =>
      intro s x hx
      cases e with
      | commit m p =>
          rcases List.mem_cons.mp hx with rfl | hx2
          · omega
          · have h2 := ih _ x hx2
            have h3 : (applyEvent s (Event.commit m p)).rid = s.rid + 1 := rfl
            omega
      | recv msg => exact lt_of_le_of_lt (rid_mono s _) (ih _ x hx)
      | connLoss => exact lt_of_le_of_lt (rid_mono s _) (ih _ x hx)
      | reconn => exact lt_of_le_of_lt (rid_mono s _) (ih _ x hx)
      | timeout i => exact lt_of_le_of_lt (rid_mono s _) (ih _ x hx)
      | register m h => exact lt_of_le_of_lt (rid_mono s _) (ih _ x hx)
      | startEv => exact lt_of_le_of_lt (rid_mono s _) (ih _ x hx)

/-- The ids assigned along any trace are strictly sorted. -/
theorem assignedIds_sorted (es : List Event) :
    ∀ s : ClientState, (assignedIds s es).Pairwise (· < ·) := by
  induction es with
  | nil => intro s; exact List.Pairwise.nil
  | cons e es ih =>
      intro s
      cases e with
      | commit m p =>
          refine List.Pairwise.cons ?_ (ih _)
          intro b hb
          have h1 := assignedIds_lower es (applyEvent s (Event.commit m p)) b hb
          have h2 : (applyEvent s (Event.commit m p)).rid = s.rid + 1 := rfl
          omega
      | recv msg => exact ih _
      | connLoss => exact ih _
      | reconn => exact ih _
      | timeout i => exact ih _
      | register m h => exact ih _
      | startEv => exact ih _

/-- Dispatch shape of the receive loop on a message with no `id` and a
string `method`: the state is unchanged and one task per registered handler
is spawned, in registration order, with `msg.get("params", {})`. -/
theorem handleMessage_notif (s : ClientState) (msg : List (String × Json)) (m : String)
    (hid : msg.lookup "id" = none)
    (hm : msg.lookup "method" = some (Json.str m)) :
    handleMessage s msg =
      (s, (subsOf s m).map (fun h => (h, (msg.lookup "params").getD (Json.obj [])))) := by
  simp only [handleMessage, hid, hm]

/-- `on` appends to exactly the chosen method's handler list. -/
theorem lookup_setdefaultAppend (l : List (String × List Nat)) (m2 : String) (h2 : Nat)
    (m : String) :
    ((setdefaultAppend l m2 h2).lookup m).getD [] =
      if m2 = m then (l.lookup m).getD [] ++ [h2] else (l.lookup m).getD [] := by
  induction l with
  | nil =>
      by_cases h : m2 = m
      · subst h
        have hb : (m2 == m2) = true := by simp
        simp [setdefaultAppend, List.lookup, hb]
      · have hb : (m == m2) = false := beq_eq_false_iff_ne.mpr (fun hc => h hc.symm)
        simp [setdefaultAppend, List.lookup, hb, h]
  | cons e l ih =>
      obtain ⟨k, hs⟩ := e
      by_cases hk : k = m2
      · subst hk
        by_cases hm2 : k = m
        · subst hm2
          have hb : (k == k) = true := by simp
          simp [setdefaultAppend, List.lookup, hb]
        · have hb : (m == k) = false := beq_eq_false_iff_ne.mpr (fun hc => hm2 hc.symm)
          have hne : ¬ k = m := hm2
          simp [setdefaultAppend, List.lookup, hb, hne]
      · by_cases hm2 : k = m
        · subst hm2
          have hb : (k == k) = true := by simp
          have hne : ¬ m2 = k := fun hc => hk hc.symm
          simp [setdefaultAppend, List.lookup, hk, hb, hne]
        · have hb : (m == k) = false := beq_eq_false_iff_ne.mpr (fun hc => hm2 hc.symm)
          simp [setdefaultAppend, List.lookup, hk, hb, ih]

/-! ## Claim theorems -/

/-- C1: the claim requires that a `call()` whose timeout expires raises
Timeout and leaves no residual pending entry; the code does raise (the
future is cancelled by `asyncio.wait_for`) but `call()` performs no cleanup,
so the entry for the timed-out id is still in the pending table afterwards.
Evaluated at the failing input: one committed call (id 1) whose timeout
fires before any response. -/
theorem timeout_leaves_pending_entry :
    sC1.pendingIds = [1] ∧
    getFut (timeoutFire sC1 1) 1 = some Promise.cancelled ∧
    (timeoutFire sC1 1).pendingIds = [1] :=
  ⟨rfl, rfl, rfl⟩

/-- C2: over any event trace of a client's lifetime, the request ids
assigned to `call()` commits are strictly increasing in commit order (hence
pairwise distinct), and the id counter survives connection loss and
reconnect unchanged. -/
theorem call_ids_strictly_increasing (s : ClientState) (es : List Event) :
    (assignedIds s es).Pairwise (· < ·) ∧
    (assignedIds s es).Pairwise (· ≠ ·) ∧
    List.Chain' (· < ·) (assignedIds s es) ∧
    (applyEvent s Event.connLoss).rid = s.rid ∧
    (applyEvent s Event.reconn).rid = s.rid := by
  have hp := assignedIds_sorted es s
  exact ⟨hp, hp.imp (fun h => Nat.ne_of_lt h), hp.chain', rfl, rfl⟩

/-- C3: the connection-loss cleanup empties the pending table (and it stays
empty through the reconnect), and every future that was still pending in the
table is rejected with ConnectionClosed. -/
theorem connection_loss_rejects_all (s : ClientState) :
    (connLossCleanup s).pendingIds = [] ∧
    (reconnect (connLossCleanup s)).pendingIds = [] ∧
    ∀ i ∈ s.pendingIds, getFut s i = some Promise.pending →
      getFut (connLossCleanup s) i = some (Promise.rejected RpcError.connectionClosed) := by
  refine ⟨rfl, rfl, ?_⟩
  intro i hi hfut
  show (s.futures.map (fun e => (e.1, rejectIfPending s.pendingIds e.1 e.2))).lookup i = _
  rw [lookup_map_val]
  unfold getFut at hfut
  rw [hfut]
  simp [rejectIfPending, hi]

/-- Witness for C3: with calls 1 and 2 in flight, the drop rejects both with
ConnectionClosed and the pending table ends empty. -/
theorem connection_loss_rejects_all_witness :
    (connLossCleanup sC3).pendingIds = [] ∧
    getFut (connLossCleanup sC3) 1 = some (Promise.rejected RpcError.connectionClosed) ∧
    getFut (connLossCleanup sC3) 2 = some (Promise.rejected RpcError.connectionClosed) :=
  ⟨(connection_loss_rejects_all sC3).1,
   (connection_loss_rejects_all sC3).2.2 1 (by simp [sC3]) rfl,
   (connection_loss_rejects_all sC3).2.2 2 (by simp [sC3]) rfl⟩

/-- C4: an incoming message whose id matches a still-pending entry removes
that entry, spawns no handler task, and settles the call: rejected with the
error payload verbatim when an `error` key is present, else resolved with
the `result` value (null when the key is absent). -/
theorem response_settles_pending (s : ClientState) (msg : List (String × Json)) (n : Nat)
    (hid : msg.lookup "id" = some (Json.num (Int.ofNat n)))
    (hnd : s.pendingIds.Nodup)
    (hmem : n ∈ s.pendingIds)
    (hfut : getFut s n = some Promise.pending) :
    n ∉ (handleMessage s msg).1.pendingIds ∧
    (handleMessage s msg).2 = [] ∧
    (∀ e, msg.lookup "error" = some e →
      getFut (handleMessage s msg).1 n = some (Promise.rejected (RpcError.remoteError e))) ∧
    (msg.lookup "error" = none →
      getFut (handleMessage s msg).1 n =
        some (Promise.resolved ((msg.lookup "result").getD Json.null))) := by
  have hfind : s.pendingIds.find? (fun i => matchIdv (Json.num (Int.ofNat n)) i) = some n :=
    find_unique (fun i => matchIdv_num n i) hmem
  have hH : handleMessage s msg =
      ({ s with pendingIds := s.pendingIds.erase n,
                futures := s.futures.map
                  (fun e => (e.1, setIfPending n (settleValue msg) e.1 e.2)) }, []) := by
    simp only [handleMessage, hid, hfind]
  have hlook : getFut (handleMessage s msg).1 n = some (settleValue msg) := by
    rw [hH]
    show (s.futures.map (fun e => (e.1, setIfPending n (settleValue msg) e.1 e.2))).lookup n = _
    rw [lookup_map_val]
    unfold getFut at hfut
    rw [hfut]
    simp [setIfPending]
  refine ⟨?_, by rw [hH], ?_, ?_⟩
  · rw [hH]
    intro hmem2
    exact ((hnd.mem_erase_iff).mp hmem2).1 rfl
  · intro e he
    rw [hlook]
    simp [settleValue, he]
  · intro he
    rw [hlook]
    simp [settleValue, he]

/-- Witness for C4: the error response for id 7 rejects the pending call
with the error payload and removes the entry. -/
theorem response_settles_pending_witness :
    7 ∉ (handleMessage sC4 msgC4).1.pendingIds ∧
    getFut (handleMessage sC4 msgC4).1 7 =
      some (Promise.rejected (RpcError.remoteError
        (Json.obj [("code", Json.num (-1)), ("message", Json.str "bad")]))) := by
  have h := response_settles_pending sC4 msgC4 7 rfl (by simp [sC4]) (by simp [sC4]) rfl
  exact ⟨h.1, h.2.2.1 _ rfl⟩

/-- C5: a notification (no id) with method `m` spawns one task per handler
registered for `m`, in registration order, each with the notification's
params; the client state is untouched; only handlers registered for `m` are
invoked, and with no registered handlers nothing happens; `on` appends to
exactly the chosen method's handler list. -/
theorem notification_dispatches_handlers (s : ClientState) (msg : List (String × Json))
    (m : String) (p : Json)
    (hid : msg.lookup "id" = none)
    (hm : msg.lookup "method" = some (Json.str m))
    (hp : msg.lookup "params" = some p) :
    (handleMessage s msg).2 = (subsOf s m).map (fun h => (h, p)) ∧
    (handleMessage s msg).1 = s ∧
    (subsOf s m = [] → (handleMessage s msg).2 = []) ∧
    (∀ h q, (h, q) ∈ (handleMessage s msg).2 → h ∈ subsOf s m ∧ q = p) ∧
    (∀ m2 h2, subsOf (onReg s m2 h2) m =
      if m2 = m then subsOf s m ++ [h2] else subsOf s m) := by
  have hH := handleMessage_notif s msg m hid hm
  rw [hH, hp]
  refine ⟨rfl, rfl, fun h0 => by rw [h0]; rfl, ?_, ?_⟩
  · intro h q hq
    simp only [Option.getD_some, List.mem_map] at hq
    obtain ⟨a, ha, heq⟩ := hq
    obtain ⟨rfl, rfl⟩ := Prod.mk.injEq .. ▸ heq
    exact ⟨ha, rfl⟩
  · intro m2 h2
    exact lookup_setdefaultAppend s.subs m2 h2 m

/-- Witness for C5: both handlers on `joined` fire once, in order, with the
payload; the handler on `left` does not. -/
theorem notification_dispatches_handlers_witness :
    (handleMessage sC5 msgC5).2 =
      [(0, Json.obj [("player", Json.obj [("name", Json.str "Bob")])]),
       (1, Json.obj [("player", Json.obj [("name", Json.str "Bob")])])] ∧
    (handleMessage sC5 msgC5).1 = sC5 := by
  have h := notification_dispatches_handlers sC5 msgC5 "joined"
    (Json.obj [("player", Json.obj [("name", Json.str "Bob")])]) rfl rfl rfl
  exact ⟨h.1.trans rfl, h.2.1⟩

/-- C6: name extraction on a bare string yields the string itself, on a list
of name objects yields the names in order, and on empty or unrecognized
shapes (empty object, empty list, a number, null) yields the Unknown
placeholder. -/
theorem extract_names_shapes :
    extract_names (Json.str "Carol") = [Json.str "Carol"] ∧
    extract_names (Json.arr [Json.obj [("name", Json.str "Dan")],
      Json.obj [("name", Json.str "Eve")]]) = [Json.str "Dan", Json.str "Eve"] ∧
    extract_names (Json.obj []) = [Json.str "Unknown"] ∧
    extract_names (Json.arr []) = [Json.str "Unknown"] ∧
    extract_names (Json.num 7) = [Json.str "Unknown"] ∧
    extract_names Json.null = [Json.str "Unknown"] :=
  ⟨rfl, rfl, rfl, rfl, rfl, rfl⟩

/-- C7: the outgoing request carries exactly the jsonrpc tag, the assigned
id and the method, and a `params` key exists precisely when (and with the
value that) a non-null params argument was supplied. -/
theorem request_params_key_iff (rid : Nat) (m : String) (params : Option Json) :
    (mkRequest rid m params).lookup "jsonrpc" = some (Json.str "2.0") ∧
    (mkRequest rid m params).lookup "id" = some (Json.num (Int.ofNat rid)) ∧
    (mkRequest rid m params).lookup "method" = some (Json.str m) ∧
    (mkRequest rid m params).lookup "params" = params ∧
    (mkRequest rid m params).map Prod.fst =
      ["jsonrpc", "id", "method"] ++
        (match params with
         | some _ => ["params"]
         | none => []) ∧
    (callCommit { initClient with connected := true } m params).2.2 =
      mkRequest 1 m params := by
  cases params with
  | none => exact ⟨rfl, rfl, rfl, rfl, rfl, rfl⟩
  | some p => exact ⟨rfl, rfl, rfl, rfl, rfl, rfl⟩

/-- C8: the connection-loss cleanup leaves the subscription table untouched,
so after a reconnect a notification still spawns the tasks of every handler
registered before the drop. -/
theorem reconnect_preserves_subscriptions (s : ClientState) (msg : List (String × Json))
    (m : String) (p : Json)
    (hid : msg.lookup "id" = none)
    (hm : msg.lookup "method" = some (Json.str m))
    (hp : msg.lookup "params" = some p) :
    (connLossCleanup s).subs = s.subs ∧
    (reconnect (connLossCleanup s)).subs = s.subs ∧
    subsOf (reconnect (connLossCleanup s)) m = subsOf s m ∧
    (handleMessage (reconnect (connLossCleanup s)) msg).2 =
      (subsOf s m).map (fun h => (h, p)) := by
  have hH := handleMessage_notif (reconnect (connLossCleanup s)) msg m hid hm
  refine ⟨rfl, rfl, rfl, ?_⟩
  rw [hH, hp]
  rfl

/-- Witness for C8: the handler on `joined` registered before the drop still
fires after the drop and reconnect, with the new notification's payload. -/
theorem reconnect_preserves_subscriptions_witness :
    (reconnect (connLossCleanup sC8)).subs = sC8.subs ∧
    (handleMessage (reconnect (connLossCleanup sC8)) msgC8).2 = [(0, Json.str "Bob")] := by
  have h := reconnect_preserves_subscriptions sC8 msgC8 "joined" (Json.str "Bob") rfl rfl rfl
  exact ⟨h.2.1, h.2.2.2.trans rfl⟩

/-- C9: `start()` is idempotent — starting twice from any state is the same
as starting once, so a second `start()` on a running client changes nothing
and spawns no second reader task. -/
theorem start_idempotent (s : ClientState) : startOp (startOp s) = startOp s := by
  by_cases h : s.running
  · simp [startOp, h]
  · simp [startOp, h]

/-- C10: a message with no id and no `params` key dispatches to the method's
handlers with the empty object as params (the receive loop does not fail on
the missing key), and name extraction on that empty object yields the
Unknown placeholder. -/
theorem missing_params_defaults_empty (s : ClientState) (msg : List (String × Json))
    (m : String)
    (hid : msg.lookup "id" = none)
    (hm : msg.lookup "method" = some (Json.str m))
    (hp : msg.lookup "params" = none) :
    (handleMessage s msg).2 = (subsOf s m).map (fun h => (h, Json.obj [])) ∧
    (handleMessage s msg).1 = s ∧
    extract_names (Json.obj []) = [Json.str "Unknown"] := by
  have hH := handleMessage_notif s msg m hid hm
  rw [hH, hp]
  exact ⟨rfl, rfl, rfl⟩

/-- Witness for C10: a bare `joined` notification without `params` invokes
both registered handlers with the empty object. -/
theorem missing_params_defaults_empty_witness :
    (handleMessage sC10 msgC10).2 = [(4, Json.obj []), (5, Json.obj [])] ∧
    extract_names (Json.obj []) = [Json.str "Unknown"] := by
  have h := missing_params_defaults_empty sC10 msgC10 "joined" rfl rfl rfl
  exact ⟨h.1.trans rfl, h.2.2⟩
